import Mathlib

/-!
Shallow embedding of the signal-detection engine of `yurei-quant-insight`
(`src/analysis/metrics.py`, `src/models/signals.py`, `src/analysis/ingestion.py`).

Modelling conventions:
* Timestamps are integers counting microseconds (polars `Datetime("us")`);
  one minute is `60000000` microseconds.
* Decimal / float quantities are rationals (`ℚ`).
* A polars `LazyFrame` of trades is a `List Trade` in frame row order; the
  ingestion layer (`fetch_recent_pumpfun_trades`) returns rows ordered by
  `observed_at` descending, which matters for polars' order-sensitive
  `.last()` aggregation.
* `spike_percentage` may be `+infinity` (Python `float("inf")`), modelled by
  the two-constructor type `Spike`.
* Presentation-only fields (`description`, the `timestamp` default factory)
  are omitted from the signal records: they carry no decision logic.
-/

/-- One observed on-chain trade (row of the `pumpfun_trades` frame). -/
structure Trade where
  observed_at : Int
  mint : String
  trader : String
  is_buy : Bool
  sol_amount : ℚ
  token_amount : ℚ
  virtual_sol_reserves : ℚ
  virtual_token_reserves : ℚ
deriving DecidableEq, Repr

/-- `SignalSeverity` from `src/models/signals.py`. -/
inductive SignalSeverity where
  | LOW
  | MEDIUM
  | HIGH
  | CRITICAL
deriving DecidableEq, Repr

/-- A spike percentage: a finite value or `float("inf")`. -/
inductive Spike where
  | fin (q : ℚ)
  | inf
deriving DecidableEq, Repr

/-- Python `spike_percentage >= threshold_percent` where the left side may be
`float("inf")`. -/
def spikeGe : Spike → ℚ → Bool
  | Spike.inf, _ => true
  | Spike.fin q, t => decide (t ≤ q)

/-- `VolumeSignal` (decision-relevant fields). -/
structure VolumeSignal where
  severity : SignalSeverity
  mint : String
  recent_volume_sol : ℚ
  baseline_volume_sol : ℚ
  spike_percentage : Spike
  trade_count_recent : Nat
  trade_count_baseline : Nat
deriving DecidableEq, Repr

/-- `WhaleSignal` (decision-relevant fields). -/
structure WhaleSignal where
  severity : SignalSeverity
  mint : String
  trader_address : String
  total_sol_accumulated : ℚ
  total_tokens_accumulated : ℚ
  trade_count : Nat
  first_trade_at : Int
  last_trade_at : Int
  estimated_market_cap_sol : Option ℚ
deriving DecidableEq, Repr

/-- Microseconds in one minute. -/
def usPerMinute : Int := 60000000

/-- Sum of `sol_amount` over a list of trades (polars `col("sol_amount").sum()`,
empty sum is `0`, matching the Python `or 0.0` null-guard). -/
def sumSol (l : List Trade) : ℚ := (l.map (fun t => t.sol_amount)).sum

/-- Sum of `token_amount` over a list of trades. -/
def sumTok (l : List Trade) : ℚ := (l.map (fun t => t.token_amount)).sum

/-- `trades_lf.filter(pl.col("mint") == mint)`. -/
def mintTrades (trades : List Trade) (mint : String) : List Trade :=
  trades.filter (fun t => t.mint == mint)

/-! ## Volume spike detector (`VolumeMetrics.detect_volume_spike`) -/

/-- Buy-direction trades of `mint` in the recent window
(`observed_at >= now - recent_minutes`, then `is_buy == True`). -/
def recentBuys (trades : List Trade) (mint : String) (now : Int)
    (recent_minutes : Int) : List Trade :=
  ((mintTrades trades mint).filter
    (fun t => decide (now - recent_minutes * usPerMinute ≤ t.observed_at))).filter
    (fun t => t.is_buy)

/-- Buy-direction trades of `mint` in the baseline window
(`baseline_cutoff <= observed_at < recent_cutoff`, then `is_buy == True`). -/
def baselineBuys (trades : List Trade) (mint : String) (now : Int)
    (recent_minutes baseline_minutes : Int) : List Trade :=
  ((mintTrades trades mint).filter
    (fun t =>
      decide (now - (recent_minutes + baseline_minutes) * usPerMinute ≤ t.observed_at) &&
      decide (t.observed_at < now - recent_minutes * usPerMinute))).filter
    (fun t => t.is_buy)

/-- Severity tiering of `detect_volume_spike` (lines 99–106 of `metrics.py`). -/
def volumeSeverity (sp : Spike) : SignalSeverity :=
  if spikeGe sp 1000 then SignalSeverity.CRITICAL
  else if spikeGe sp 500 then SignalSeverity.HIGH
  else if spikeGe sp 300 then SignalSeverity.MEDIUM
  else SignalSeverity.LOW

/-- The `VolumeSignal` constructed at lines 108–120 of `metrics.py`. -/
def mkVolSignal (mint : String) (rv bv : ℚ) (sp : Spike) (rc bc : Nat) :
    VolumeSignal :=
  { severity := volumeSeverity sp
    mint := mint
    recent_volume_sol := rv
    baseline_volume_sol := bv
    spike_percentage := sp
    trade_count_recent := rc
    trade_count_baseline := bc }

/-- Core of `detect_volume_spike` after the window volumes are computed
(lines 86–122 of `metrics.py`): zero-baseline policy, trigger, severity. -/
def detectVolumeCore (mint : String) (recent_volume baseline_volume : ℚ)
    (rc bc : Nat) (threshold_percent : ℚ) : Option VolumeSignal :=
  if baseline_volume = 0 then
    if 0 < recent_volume then
      if spikeGe Spike.inf threshold_percent then
        some (mkVolSignal mint recent_volume baseline_volume Spike.inf rc bc)
      else none
    else none
  else
    let sp := Spike.fin ((recent_volume - baseline_volume) / baseline_volume * 100)
    if spikeGe sp threshold_percent then
      some (mkVolSignal mint recent_volume baseline_volume sp rc bc)
    else none

/-- `VolumeMetrics.detect_volume_spike`: window filters, then the core. -/
def detect_volume_spike (trades : List Trade) (mint : String) (now : Int)
    (recent_minutes baseline_minutes : Int) (threshold_percent : ℚ) :
    Option VolumeSignal :=
  detectVolumeCore mint
    (sumSol (recentBuys trades mint now recent_minutes))
    (sumSol (baselineBuys trades mint now recent_minutes baseline_minutes))
    (recentBuys trades mint now recent_minutes).length
    (baselineBuys trades mint now recent_minutes baseline_minutes).length
    threshold_percent

/-- The spike percentage determined by the two computed volumes (the value the
two branches of `detect_volume_spike` assign when they assign one). -/
def spikeOf (recent_volume baseline_volume : ℚ) : Spike :=
  if baseline_volume = 0 then Spike.inf
  else Spike.fin ((recent_volume - baseline_volume) / baseline_volume * 100)

/-- Severity rank used to compare severities (LOW < MEDIUM < HIGH < CRITICAL). -/
def sevRank : SignalSeverity → Nat
  | SignalSeverity.LOW => 1
  | SignalSeverity.MEDIUM => 2
  | SignalSeverity.HIGH => 3
  | SignalSeverity.CRITICAL => 4

/-- Rank of an optional volume signal; `none` ranks below every severity. -/
def volSignalRank : Option VolumeSignal → Nat
  | none => 0
  | some s => sevRank s.severity

/-! ## Whale accumulation detector (`WhaleMetrics.detect_whale_accumulation`) -/

/-- `mint_trades["observed_at"].min()`: `none` on an empty frame. -/
def minObserved : List Trade → Option Int
  | [] => none
  | t :: ts => some (ts.foldl (fun m u => min m u.observed_at) t.observed_at)

/-- Running minimum of `observed_at` (polars `col("observed_at").min()` within
a group whose rows are `r :: rs`, seeded with `r`). -/
def minObsFrom (i : Int) (l : List Trade) : Int :=
  l.foldl (fun m t => min m t.observed_at) i

/-- Running maximum of `observed_at` within a group. -/
def maxObsFrom (i : Int) (l : List Trade) : Int :=
  l.foldl (fun m t => max m t.observed_at) i

/-- `mint_trades.filter(pl.col("observed_at") <= window_end)` where
`window_end = first_trade_time + timedelta(minutes=first_minutes)`; empty when
the mint has no trades. -/
def earlyTrades (trades : List Trade) (mint : String) (first_minutes : Int) :
    List Trade :=
  match minObserved (mintTrades trades mint) with
  | none => []
  | some first_trade_time =>
      (mintTrades trades mint).filter
        (fun t => decide (t.observed_at ≤ first_trade_time + first_minutes * usPerMinute))

/-- `early_trades.filter(pl.col("is_buy") == True)`. -/
def earlyBuys (trades : List Trade) (mint : String) (first_minutes : Int) :
    List Trade :=
  (earlyTrades trades mint first_minutes).filter (fun t => t.is_buy)

/-- The distinct group keys of `group_by("trader")` over the buy frame. -/
def uniqueTraders (l : List Trade) : List String :=
  (l.map (fun t => t.trader)).dedup

/-- `total_sol >= 50` → CRITICAL, `>= 25` → HIGH, `>= 15` → MEDIUM, else LOW
(lines 209–216 of `metrics.py`). -/
def whaleSeverity (total_sol : ℚ) : SignalSeverity :=
  if 50 ≤ total_sol then SignalSeverity.CRITICAL
  else if 25 ≤ total_sol then SignalSeverity.HIGH
  else if 15 ≤ total_sol then SignalSeverity.MEDIUM
  else SignalSeverity.LOW

/-- The rows of one `group_by("trader")` group: the buy frame restricted to the
trader, in frame row order. -/
def whaleGroup (buys : List Trade) (tr : String) : List Trade :=
  buys.filter (fun t => t.trader == tr)

/-- Aggregation, threshold filter and signal construction for one trader group
(lines 182–233 of `metrics.py`), given the group's rows in frame row order.
Polars' `.last()` on the reserve columns is the last row of the group in frame
order (`getLastD`).  The market-cap guard is Python truthiness: both reserve
values must be non-null and nonzero. -/
def whaleSignalOfRows (mint : String) (sol_threshold : ℚ) (tr : String) :
    List Trade → Option WhaleSignal
  | [] => none
  | r :: rs =>
      if sol_threshold ≤ sumSol (r :: rs) then
        some
          { severity := whaleSeverity (sumSol (r :: rs))
            mint := mint
            trader_address := tr
            total_sol_accumulated := sumSol (r :: rs)
            total_tokens_accumulated := sumTok (r :: rs)
            trade_count := (r :: rs).length
            first_trade_at := minObsFrom r.observed_at rs
            last_trade_at := maxObsFrom r.observed_at rs
            estimated_market_cap_sol :=
              if ((r :: rs).getLastD r).virtual_sol_reserves ≠ 0 ∧
                 ((r :: rs).getLastD r).virtual_token_reserves ≠ 0 then
                some ((r :: rs).getLastD r).virtual_sol_reserves
              else none }
      else none

/-- One trader's contribution to `detect_whale_accumulation`: group the buy
frame by the trader, aggregate and filter by the SOL threshold. -/
def whaleSignalFor (mint : String) (sol_threshold : ℚ) (buys : List Trade)
    (tr : String) : Option WhaleSignal :=
  whaleSignalOfRows mint sol_threshold tr (whaleGroup buys tr)

/-- `WhaleMetrics.detect_whale_accumulation` (lines 129–235 of `metrics.py`). -/
def detect_whale_accumulation (trades : List Trade) (mint : String)
    (first_minutes : Int) (sol_threshold : ℚ) : List WhaleSignal :=
  if (mintTrades trades mint).isEmpty then []
  else
    match minObserved (mintTrades trades mint) with
    | none => []
    | some _ =>
        if (earlyTrades trades mint first_minutes).isEmpty then []
        else
          (uniqueTraders (earlyBuys trades mint first_minutes)).filterMap
            (whaleSignalFor mint sol_threshold (earlyBuys trades mint first_minutes))

/-- A trader's buy-direction trades inside the whale detection window, in
frame row order. -/
def inWindowBuys (trades : List Trade) (mint : String) (first_minutes : Int)
    (tr : String) : List Trade :=
  (earlyBuys trades mint first_minutes).filter (fun t => t.trader == tr)

/-! ## Concrete inputs used by counterexamples and witnesses -/

/-- The concrete Scenario A batch: one mint, baseline-window buy volume 100,
recent-window buy volume 500 (now = minute 20, windows 5 and 15 minutes). -/
def scenarioABatch : List Trade :=
  [⟨16 * usPerMinute, "m", "a", true, 500, 1, 1, 1⟩,
   ⟨5 * usPerMinute, "m", "b", true, 100, 1, 1, 1⟩]

/-- Batch whose second whale trade sits exactly at
`launch_time + first_window` (launch 0, window 5 minutes). -/
def boundaryBatch : List Trade :=
  [⟨5 * usPerMinute, "m", "w", true, 6, 1, 1, 1⟩,
   ⟨0, "m", "w", true, 6, 1, 1, 1⟩]

/-- Batch in `observed_at`-descending order (as the ingestion query returns
it): the chronologically last trade (minute 1, reserves 200/300) comes first,
the launch trade (time 0, reserves 100/150) last. -/
def descReservesBatch : List Trade :=
  [⟨60 * 1000000, "m", "w", true, 6, 2, 200, 300⟩,
   ⟨0, "m", "w", true, 6, 3, 100, 150⟩]

/-- Batch whose single whale trade carries a present but zero
`virtual_token_reserves` value. -/
def zeroReserveBatch : List Trade :=
  [⟨0, "m", "w", true, 12, 3, 7, 0⟩]

/-- Batch containing only a sell-direction trade by trader `w`. -/
def sellOnlyBatch : List Trade :=
  [⟨0, "m", "w", false, 5, 1, 1, 1⟩]

/-- The whale signal produced for a single 20-SOL buy. -/
def whaleSig20 : WhaleSignal :=
  { severity := SignalSeverity.MEDIUM
    mint := "m"
    trader_address := "w"
    total_sol_accumulated := 20
    total_tokens_accumulated := 4
    trade_count := 1
    first_trade_at := 0
    last_trade_at := 0
    estimated_market_cap_sol := some 9 }

/-! ## Helper lemmas -/

theorem sumSol_nonneg {l : List Trade} (h : ∀ t ∈ l, 0 ≤ t.sol_amount) :
    0 ≤ sumSol l := by
  apply List.sum_nonneg
  intro x hx
  obtain ⟨t, ht, rfl⟩ := List.mem_map.mp hx
  exact h t ht

theorem mem_of_mem_recentBuys {t : Trade} {trades : List Trade} {mint : String}
    {now rm : Int} (h : t ∈ recentBuys trades mint now rm) : t ∈ trades := by
  unfold recentBuys mintTrades at h
  exact List.mem_of_mem_filter (List.mem_of_mem_filter (List.mem_of_mem_filter h))

/-- C1: for every batch with non-negative trade amounts whose computed recent
and baseline buy volumes are not both zero, `detect_volume_spike` returns a
signal if and only if the computed spike percentage is at least the threshold;
otherwise it returns none. -/
theorem volume_spike_trigger_iff (trades : List Trade) (mint : String)
    (now recent_minutes baseline_minutes : Int) (threshold_percent : ℚ)
    (hpos : ∀ t ∈ trades, 0 ≤ t.sol_amount)
    (hnz : ¬(sumSol (recentBuys trades mint now recent_minutes) = 0 ∧
             sumSol (baselineBuys trades mint now recent_minutes baseline_minutes) = 0)) :
    (detect_volume_spike trades mint now recent_minutes baseline_minutes
        threshold_percent).isSome = true ↔
      spikeGe
        (spikeOf (sumSol (recentBuys trades mint now recent_minutes))
          (sumSol (baselineBuys trades mint now recent_minutes baseline_minutes)))
        threshold_percent = true := by
  unfold detect_volume_spike detectVolumeCore spikeOf
  by_cases hB : sumSol (baselineBuys trades mint now recent_minutes baseline_minutes) = 0
  · have hRne : sumSol (recentBuys trades mint now recent_minutes) ≠ 0 := by
      intro hR; exact hnz ⟨hR, hB⟩
    have hRnn : 0 ≤ sumSol (recentBuys trades mint now recent_minutes) :=
      sumSol_nonneg (fun t ht => hpos t (mem_of_mem_recentBuys ht))
    have hR : 0 < sumSol (recentBuys trades mint now recent_minutes) :=
      lt_of_le_of_ne hRnn (Ne.symm hRne)
    simp [hB, hR, spikeGe]
  · simp only [hB, if_false]
    cases hsp : spikeGe
        (Spike.fin ((sumSol (recentBuys trades mint now recent_minutes) -
            sumSol (baselineBuys trades mint now recent_minutes baseline_minutes)) /
          sumSol (baselineBuys trades mint now recent_minutes baseline_minutes) * 100))
        threshold_percent <;>
      simp [hsp]

/-- Witness for C1 at a concrete batch: recent buy volume 500, baseline 100,
threshold 300. -/
theorem volume_spike_trigger_iff_witness :
    (detect_volume_spike
        [⟨16 * usPerMinute, "m", "a", true, 500, 1, 1, 1⟩,
         ⟨5 * usPerMinute, "m", "b", true, 100, 1, 1, 1⟩]
        "m" (20 * usPerMinute) 5 15 300).isSome = true ↔
      spikeGe
        (spikeOf
          (sumSol (recentBuys
            [⟨16 * usPerMinute, "m", "a", true, 500, 1, 1, 1⟩,
             ⟨5 * usPerMinute, "m", "b", true, 100, 1, 1, 1⟩] "m" (20 * usPerMinute) 5))
          (sumSol (baselineBuys
            [⟨16 * usPerMinute, "m", "a", true, 500, 1, 1, 1⟩,
             ⟨5 * usPerMinute, "m", "b", true, 100, 1, 1, 1⟩] "m" (20 * usPerMinute) 5 15)))
        300 = true :=
  volume_spike_trigger_iff _ "m" _ 5 15 300
    (by
      intro t ht
      simp only [List.mem_cons, List.not_mem_nil, or_false] at ht
      rcases ht with rfl | rfl <;> norm_num)
    (by
      norm_num [recentBuys, baselineBuys, mintTrades, sumSol, usPerMinute])

/-- C2: zero-baseline policy — when the computed baseline volume is zero,
a positive recent volume yields a signal with spike `+infinity` and severity
CRITICAL, and a zero recent volume yields none. -/
theorem volume_spike_zero_baseline (trades : List Trade) (mint : String)
    (now recent_minutes baseline_minutes : Int) (threshold_percent : ℚ)
    (hb : sumSol (baselineBuys trades mint now recent_minutes baseline_minutes) = 0) :
    (0 < sumSol (recentBuys trades mint now recent_minutes) →
      ∃ s, detect_volume_spike trades mint now recent_minutes baseline_minutes
              threshold_percent = some s ∧
           s.spike_percentage = Spike.inf ∧
           s.severity = SignalSeverity.CRITICAL) ∧
    (sumSol (recentBuys trades mint now recent_minutes) = 0 →
      detect_volume_spike trades mint now recent_minutes baseline_minutes
        threshold_percent = none) := by
  unfold detect_volume_spike detectVolumeCore
  constructor
  · intro hR
    refine ⟨mkVolSignal mint (sumSol (recentBuys trades mint now recent_minutes))
        (sumSol (baselineBuys trades mint now recent_minutes baseline_minutes))
        Spike.inf (recentBuys trades mint now recent_minutes).length
        (baselineBuys trades mint now recent_minutes baseline_minutes).length, ?_, rfl, ?_⟩
    · simp [hb, hR, spikeGe]
    · simp [mkVolSignal, volumeSeverity, spikeGe]
  · intro hR
    simp [hb, hR]

/-- Witness for C2: one baseline-window sell only, one recent-window buy. -/
theorem volume_spike_zero_baseline_witness :
    (0 < sumSol (recentBuys
        [⟨16 * usPerMinute, "m", "a", true, 7, 1, 1, 1⟩,
         ⟨5 * usPerMinute, "m", "b", false, 9, 1, 1, 1⟩] "m" (20 * usPerMinute) 5) →
      ∃ s, detect_volume_spike
              [⟨16 * usPerMinute, "m", "a", true, 7, 1, 1, 1⟩,
               ⟨5 * usPerMinute, "m", "b", false, 9, 1, 1, 1⟩]
              "m" (20 * usPerMinute) 5 15 300 = some s ∧
           s.spike_percentage = Spike.inf ∧
           s.severity = SignalSeverity.CRITICAL) ∧
    (sumSol (recentBuys
        [⟨16 * usPerMinute, "m", "a", true, 7, 1, 1, 1⟩,
         ⟨5 * usPerMinute, "m", "b", false, 9, 1, 1, 1⟩] "m" (20 * usPerMinute) 5) = 0 →
      detect_volume_spike
        [⟨16 * usPerMinute, "m", "a", true, 7, 1, 1, 1⟩,
         ⟨5 * usPerMinute, "m", "b", false, 9, 1, 1, 1⟩]
        "m" (20 * usPerMinute) 5 15 300 = none) :=
  volume_spike_zero_baseline _ "m" _ 5 15 300
    (by norm_num [baselineBuys, mintTrades, sumSol, usPerMinute])

/-- C6 counterexample: with baseline buy volume 100 and recent buy volume 500
the computed spike percentage is 400%, not 300%, and at threshold 350 (which is
above 300) a signal is still emitted — contradicting "signal emitted iff
threshold ≤ 300". -/
theorem scenario_a_spike_is_400_cex :
    sumSol (recentBuys scenarioABatch "m" (20 * usPerMinute) 5) = 500 ∧
    sumSol (baselineBuys scenarioABatch "m" (20 * usPerMinute) 5 15) = 100 ∧
    spikeOf (sumSol (recentBuys scenarioABatch "m" (20 * usPerMinute) 5))
        (sumSol (baselineBuys scenarioABatch "m" (20 * usPerMinute) 5 15)) ≠
      Spike.fin 300 ∧
    (detect_volume_spike scenarioABatch "m" (20 * usPerMinute) 5 15 350).isSome = true := by
  norm_num [scenarioABatch, detect_volume_spike, detectVolumeCore, recentBuys,
    baselineBuys, mintTrades, sumSol, spikeOf, spikeGe, usPerMinute]

/-- C6 amended: for any batch whose computed baseline buy volume is 100 and
recent buy volume is 500, the spike percentage is 400%, a signal is emitted iff
the threshold is ≤ 400, and any emitted signal has severity MEDIUM and spike
percentage 400. -/
theorem scenario_a_amended (trades : List Trade) (mint : String)
    (now recent_minutes baseline_minutes : Int) (threshold_percent : ℚ)
    (hr : sumSol (recentBuys trades mint now recent_minutes) = 500)
    (hb : sumSol (baselineBuys trades mint now recent_minutes baseline_minutes) = 100) :
    spikeOf (sumSol (recentBuys trades mint now recent_minutes))
        (sumSol (baselineBuys trades mint now recent_minutes baseline_minutes)) =
      Spike.fin 400 ∧
    ((detect_volume_spike trades mint now recent_minutes baseline_minutes
        threshold_percent).isSome = true ↔ threshold_percent ≤ 400) ∧
    (∀ s, detect_volume_spike trades mint now recent_minutes baseline_minutes
            threshold_percent = some s →
       s.severity = SignalSeverity.MEDIUM ∧ s.spike_percentage = Spike.fin 400) := by
  unfold detect_volume_spike detectVolumeCore spikeOf
  rw [hr, hb]
  have h400 : ((500 : ℚ) - 100) / 100 * 100 = 400 := by norm_num
  rw [if_neg (by norm_num : ¬((100 : ℚ) = 0)), if_neg (by norm_num : ¬((100 : ℚ) = 0))]
  simp only [h400]
  refine ⟨trivial, ?_, ?_⟩
  · by_cases h : threshold_percent ≤ 400 <;> simp [spikeGe, h]
  · intro s hs
    split_ifs at hs with h
    · cases hs
      refine ⟨?_, rfl⟩
      have h1000 : ¬(spikeGe (Spike.fin 400) 1000 = true) := by norm_num [spikeGe]
      have h500 : ¬(spikeGe (Spike.fin 400) 500 = true) := by norm_num [spikeGe]
      have h300 : spikeGe (Spike.fin 400) 300 = true := by norm_num [spikeGe]
      simp [mkVolSignal, volumeSeverity, h1000, h500, h300]

/-- Witness for C6 amended at the concrete Scenario A batch and threshold 300. -/
theorem scenario_a_amended_witness :
    spikeOf (sumSol (recentBuys scenarioABatch "m" (20 * usPerMinute) 5))
        (sumSol (baselineBuys scenarioABatch "m" (20 * usPerMinute) 5 15)) =
      Spike.fin 400 ∧
    ((detect_volume_spike scenarioABatch "m" (20 * usPerMinute) 5 15 300).isSome = true ↔
      (300 : ℚ) ≤ 400) ∧
    (∀ s, detect_volume_spike scenarioABatch "m" (20 * usPerMinute) 5 15 300 = some s →
       s.severity = SignalSeverity.MEDIUM ∧ s.spike_percentage = Spike.fin 400) :=
  scenario_a_amended scenarioABatch "m" (20 * usPerMinute) 5 15 300
    (by norm_num [scenarioABatch, recentBuys, mintTrades, sumSol, usPerMinute])
    (by norm_num [scenarioABatch, baselineBuys, mintTrades, sumSol, usPerMinute])

theorem volumeSeverity_rank_mono {q1 q2 : ℚ} (h : q1 ≤ q2) :
    sevRank (volumeSeverity (Spike.fin q1)) ≤ sevRank (volumeSeverity (Spike.fin q2)) := by
  unfold volumeSeverity spikeGe
  simp only [decide_eq_true_eq]
  split_ifs <;> first
    | (exfalso; linarith)
    | (norm_num [sevRank])

theorem rank_trigger_mono (mint : String) (rv1 rv2 bv : ℚ) (rc bc : Nat)
    (thr : ℚ) {q1 q2 : ℚ} (h : q1 ≤ q2) :
    volSignalRank
        (if spikeGe (Spike.fin q1) thr then
          some (mkVolSignal mint rv1 bv (Spike.fin q1) rc bc) else none) ≤
      volSignalRank
        (if spikeGe (Spike.fin q2) thr then
          some (mkVolSignal mint rv2 bv (Spike.fin q2) rc bc) else none) := by
  unfold spikeGe
  simp only [decide_eq_true_eq]
  split_ifs with h1 h2 h2
  · simpa [volSignalRank, mkVolSignal] using volumeSeverity_rank_mono h
  · exact absurd (le_trans h1 h) h2
  · simp [volSignalRank]
  · simp [volSignalRank]

/-- C9: severity is monotonic in the recent volume — with a positive baseline
volume and non-negative recent volume, doubling the recent volume (all other
inputs fixed) never decreases the severity of the result of the volume spike
detector, with `none` ranking below every severity. -/
theorem volume_severity_monotonic (mint : String) (recent baseline : ℚ)
    (rc bc : Nat) (thr : ℚ) (hb : 0 < baseline) (hr : 0 ≤ recent) :
    volSignalRank (detectVolumeCore mint recent baseline rc bc thr) ≤
      volSignalRank (detectVolumeCore mint (2 * recent) baseline rc bc thr) := by
  have hbne : baseline ≠ 0 := ne_of_gt hb
  unfold detectVolumeCore
  rw [if_neg hbne, if_neg hbne]
  have hq : (recent - baseline) / baseline * 100 ≤
      (2 * recent - baseline) / baseline * 100 := by
    gcongr
    linarith
  exact rank_trigger_mono mint recent (2 * recent) baseline rc bc thr hq

/-- Witness for C9: recent volume 8, baseline 2, threshold 300. -/
theorem volume_severity_monotonic_witness :
    volSignalRank (detectVolumeCore "m" 8 2 1 1 300) ≤
      volSignalRank (detectVolumeCore "m" (2 * 8) 2 1 1 300) :=
  volume_severity_monotonic "m" 8 2 1 1 300 (by norm_num) (by norm_num)

/-! ## Whale detector lemmas and claims -/

theorem minObsFrom_le : ∀ (l : List Trade) (i : Int), minObsFrom i l ≤ i
  | [], _ => le_refl _
  | t :: ts, i =>
      le_trans (minObsFrom_le ts (min i t.observed_at)) (min_le_left _ _)

theorem le_maxObsFrom : ∀ (l : List Trade) (i : Int), i ≤ maxObsFrom i l
  | [], _ => le_refl _
  | t :: ts, i =>
      le_trans (le_max_left _ _) (le_maxObsFrom ts (max i t.observed_at))

/-- Every signal in the detector's output is produced by `whaleSignalFor` at
some trader of the early-window buy frame. -/
theorem mem_detect_whale {trades : List Trade} {mint : String}
    {first_minutes : Int} {sol_threshold : ℚ} {s : WhaleSignal}
    (h : s ∈ detect_whale_accumulation trades mint first_minutes sol_threshold) :
    ∃ tr ∈ uniqueTraders (earlyBuys trades mint first_minutes),
      whaleSignalFor mint sol_threshold (earlyBuys trades mint first_minutes) tr =
        some s := by
  unfold detect_whale_accumulation at h
  by_cases h1 : (mintTrades trades mint).isEmpty
  · rw [if_pos h1] at h
    exact absurd h (List.not_mem_nil s)
  · rw [if_neg h1] at h
    cases hmin : minObserved (mintTrades trades mint) with
    | none =>
        rw [hmin] at h
        exact absurd h (List.not_mem_nil s)
    | some L =>
        rw [hmin] at h
        by_cases h2 : (earlyTrades trades mint first_minutes).isEmpty
        · rw [if_pos h2] at h
          exact absurd h (List.not_mem_nil s)
        · rw [if_neg h2] at h
          obtain ⟨tr, htr, hf⟩ := List.mem_filterMap.mp h
          exact ⟨tr, htr, hf⟩

/-- Inversion of `whaleSignalOfRows` on a produced signal. -/
theorem whaleSignalOfRows_eq_some {mint : String} {thr : ℚ} {tr : String}
    {rows : List Trade} {s : WhaleSignal}
    (hs : whaleSignalOfRows mint thr tr rows = some s) :
    ∃ r rs, rows = r :: rs ∧ thr ≤ sumSol (r :: rs) ∧
      s = { severity := whaleSeverity (sumSol (r :: rs))
            mint := mint
            trader_address := tr
            total_sol_accumulated := sumSol (r :: rs)
            total_tokens_accumulated := sumTok (r :: rs)
            trade_count := (r :: rs).length
            first_trade_at := minObsFrom r.observed_at rs
            last_trade_at := maxObsFrom r.observed_at rs
            estimated_market_cap_sol :=
              if ((r :: rs).getLastD r).virtual_sol_reserves ≠ 0 ∧
                 ((r :: rs).getLastD r).virtual_token_reserves ≠ 0 then
                some ((r :: rs).getLastD r).virtual_sol_reserves
              else none } := by
  cases rows with
  | nil => exact absurd hs (by simp [whaleSignalOfRows])
  | cons r rs =>
      rw [show whaleSignalOfRows mint thr tr (r :: rs) =
          (if thr ≤ sumSol (r :: rs) then
            some
              { severity := whaleSeverity (sumSol (r :: rs))
                mint := mint
                trader_address := tr
                total_sol_accumulated := sumSol (r :: rs)
                total_tokens_accumulated := sumTok (r :: rs)
                trade_count := (r :: rs).length
                first_trade_at := minObsFrom r.observed_at rs
                last_trade_at := maxObsFrom r.observed_at rs
                estimated_market_cap_sol :=
                  if ((r :: rs).getLastD r).virtual_sol_reserves ≠ 0 ∧
                     ((r :: rs).getLastD r).virtual_token_reserves ≠ 0 then
                    some ((r :: rs).getLastD r).virtual_sol_reserves
                  else none }
          else none) from rfl] at hs
      by_cases hthr : thr ≤ sumSol (r :: rs)
      · rw [if_pos hthr] at hs
        exact ⟨r, rs, rfl, hthr, (Option.some.injEq _ _).mp hs.symm⟩
      · rw [if_neg hthr] at hs
        exact absurd hs (by simp)

/-- C10: every whale signal has `first_trade_at ≤ last_trade_at` and a
positive trade count. -/
theorem whale_signal_invariants (trades : List Trade) (mint : String)
    (first_minutes : Int) (sol_threshold : ℚ) (s : WhaleSignal)
    (h : s ∈ detect_whale_accumulation trades mint first_minutes sol_threshold) :
    s.first_trade_at ≤ s.last_trade_at ∧ 1 ≤ s.trade_count := by
  obtain ⟨tr, -, hf⟩ := mem_detect_whale h
  obtain ⟨r, rs, -, -, hsval⟩ := whaleSignalOfRows_eq_some hf
  subst hsval
  refine ⟨?_, ?_⟩
  · exact le_trans (minObsFrom_le rs r.observed_at) (le_maxObsFrom rs r.observed_at)
  · simp

/-- Witness for C10 at a two-buy batch producing one signal. -/
theorem whale_signal_invariants_witness :
    ({ severity := SignalSeverity.LOW
       mint := "m"
       trader_address := "w"
       total_sol_accumulated := 12
       total_tokens_accumulated := 5
       trade_count := 2
       first_trade_at := 0
       last_trade_at := 60 * 1000000
       estimated_market_cap_sol := some 100 } : WhaleSignal).first_trade_at ≤
      ({ severity := SignalSeverity.LOW
         mint := "m"
         trader_address := "w"
         total_sol_accumulated := 12
         total_tokens_accumulated := 5
         trade_count := 2
         first_trade_at := 0
         last_trade_at := 60 * 1000000
         estimated_market_cap_sol := some 100 } : WhaleSignal).last_trade_at ∧
    1 ≤ ({ severity := SignalSeverity.LOW
           mint := "m"
           trader_address := "w"
           total_sol_accumulated := 12
           total_tokens_accumulated := 5
           trade_count := 2
           first_trade_at := 0
           last_trade_at := 60 * 1000000
           estimated_market_cap_sol := some 100 } : WhaleSignal).trade_count :=
  whale_signal_invariants
    [⟨60 * 1000000, "m", "w", true, 6, 2, 200, 300⟩,
     ⟨0, "m", "w", true, 6, 3, 100, 150⟩] "m" 5 10 _
    (by
      norm_num [detect_whale_accumulation, mintTrades, minObserved, earlyTrades,
        earlyBuys, uniqueTraders, whaleSignalFor, whaleGroup, whaleSignalOfRows,
        whaleSeverity, sumSol, sumTok, minObsFrom, maxObsFrom, usPerMinute,
        List.dedup, List.filterMap, min_def, max_def])

/-- C7: every emitted whale signal's severity follows the tiers on its
accumulated total — `>= 50` CRITICAL, `>= 25` HIGH, `>= 15` MEDIUM, else LOW —
and in particular a total of 20 yields MEDIUM. -/
theorem whale_severity_tiers (trades : List Trade) (mint : String)
    (first_minutes : Int) (sol_threshold : ℚ) (s : WhaleSignal)
    (h : s ∈ detect_whale_accumulation trades mint first_minutes sol_threshold) :
    (s.severity =
      if 50 ≤ s.total_sol_accumulated then SignalSeverity.CRITICAL
      else if 25 ≤ s.total_sol_accumulated then SignalSeverity.HIGH
      else if 15 ≤ s.total_sol_accumulated then SignalSeverity.MEDIUM
      else SignalSeverity.LOW) ∧
    (s.total_sol_accumulated = 20 → s.severity = SignalSeverity.MEDIUM) := by
  obtain ⟨tr, -, hf⟩ := mem_detect_whale h
  obtain ⟨r, rs, -, -, hsval⟩ := whaleSignalOfRows_eq_some hf
  subst hsval
  refine ⟨rfl, ?_⟩
  intro h20
  simp only at h20
  simp only [whaleSeverity, h20]
  norm_num

/-- Witness for C7 at a single 20-SOL buy. -/
theorem whale_severity_tiers_witness :
    (whaleSig20.severity =
      if 50 ≤ whaleSig20.total_sol_accumulated then SignalSeverity.CRITICAL
      else if 25 ≤ whaleSig20.total_sol_accumulated then SignalSeverity.HIGH
      else if 15 ≤ whaleSig20.total_sol_accumulated then SignalSeverity.MEDIUM
      else SignalSeverity.LOW) ∧
    (whaleSig20.total_sol_accumulated = 20 →
      whaleSig20.severity = SignalSeverity.MEDIUM) :=
  whale_severity_tiers [⟨0, "m", "w", true, 20, 4, 9, 3⟩] "m" 5 10 whaleSig20
    (by
      norm_num [detect_whale_accumulation, mintTrades, minObserved, earlyTrades,
        earlyBuys, uniqueTraders, whaleSignalFor, whaleGroup, whaleSignalOfRows,
        whaleSeverity, sumSol, sumTok, minObsFrom, maxObsFrom, usPerMinute,
        whaleSig20, List.dedup, List.filterMap, min_def, max_def])

/-- C3 counterexample: in `boundaryBatch` the second trade sits exactly at
`launch_time + first_window` (minute 5 after launch 0).  The claim says it
contributes to no trader's totals, but the detector emits one signal counting
both trades with total 12 — the boundary trade is included. -/
theorem whale_window_boundary_cex :
    ((5 * usPerMinute : Int) = 0 + 5 * usPerMinute) ∧
    (detect_whale_accumulation boundaryBatch "m" 5 10).map
        (fun s => (s.trade_count, s.total_sol_accumulated)) = [(2, 12)] := by
  refine ⟨by norm_num, ?_⟩
  norm_num [detect_whale_accumulation, boundaryBatch, mintTrades, minObserved,
    earlyTrades, earlyBuys, uniqueTraders, whaleSignalFor, whaleGroup,
    whaleSignalOfRows, whaleSeverity, sumSol, sumTok, minObsFrom, maxObsFrom,
    usPerMinute, List.dedup, List.filterMap, min_def, max_def]

/-- C3 amended: the whale detection window is closed, not half-open — a mint
trade is in the aggregation window iff `observed_at ≤ launch_time +
first_window`; the boundary trade is included, any strictly later trade is
excluded. -/
theorem whale_window_membership (trades : List Trade) (mint : String)
    (first_minutes : Int) (t : Trade) (L : Int)
    (ht : t ∈ mintTrades trades mint)
    (hL : minObserved (mintTrades trades mint) = some L) :
    t ∈ earlyTrades trades mint first_minutes ↔
      t.observed_at ≤ L + first_minutes * usPerMinute := by
  unfold earlyTrades
  rw [hL]
  simp [List.mem_filter, ht]

/-- Witness for C3 amended: the boundary trade of `boundaryBatch`. -/
theorem whale_window_membership_witness :
    (⟨5 * usPerMinute, "m", "w", true, 6, 1, 1, 1⟩ : Trade) ∈
        earlyTrades boundaryBatch "m" 5 ↔
      (⟨5 * usPerMinute, "m", "w", true, 6, 1, 1, 1⟩ : Trade).observed_at ≤
        0 + 5 * usPerMinute :=
  whale_window_membership boundaryBatch "m" 5 _ 0
    (by norm_num [mintTrades, boundaryBatch])
    (by norm_num [minObserved, mintTrades, boundaryBatch, min_def, usPerMinute])

/-- C4: evaluation at the failing input.  `descReservesBatch` arrives in the
ingestion layer's `observed_at`-descending order; the trader's chronologically
last in-window buy (minute 1) has `virtual_sol_reserves = 200`, yet the
detector's order-sensitive `.last()` aggregation picks the frame-order last
row — the chronologically first trade — so the emitted market-cap estimate is
100, not 200. -/
theorem whale_last_reserves_eval :
    List.Sorted (fun a b : Trade => b.observed_at ≤ a.observed_at)
        descReservesBatch ∧
    (detect_whale_accumulation descReservesBatch "m" 5 10).map
        (fun s => s.estimated_market_cap_sol) = [some 100] := by
  constructor
  · simp [descReservesBatch, List.sorted_cons]
  · norm_num [detect_whale_accumulation, descReservesBatch, mintTrades,
      minObserved, earlyTrades, earlyBuys, uniqueTraders, whaleSignalFor,
      whaleGroup, whaleSignalOfRows, whaleSeverity, sumSol, sumTok, minObsFrom,
      maxObsFrom, usPerMinute, List.dedup, List.filterMap, min_def, max_def]

/-- C5 counterexample: in `zeroReserveBatch` the qualifying trader's last trade
has both reserve values present (`7` and `0`), yet the emitted signal carries
no market-cap estimate — the claim says the estimate is absent only when
reserve data is missing. -/
theorem whale_market_cap_zero_cex :
    zeroReserveBatch.map
        (fun t => (t.virtual_sol_reserves, t.virtual_token_reserves)) =
      [(7, 0)] ∧
    (detect_whale_accumulation zeroReserveBatch "m" 5 10).map
        (fun s => s.estimated_market_cap_sol) = [none] := by
  constructor
  · norm_num [zeroReserveBatch]
  · norm_num [detect_whale_accumulation, zeroReserveBatch, mintTrades,
      minObserved, earlyTrades, earlyBuys, uniqueTraders, whaleSignalFor,
      whaleGroup, whaleSignalOfRows, whaleSeverity, sumSol, sumTok, minObsFrom,
      maxObsFrom, usPerMinute, List.dedup, List.filterMap, min_def, max_def]

/-- C5 amended: the emitted signal's `estimated_market_cap_sol` equals the
group's frame-order last row's `virtual_sol_reserves` when both of that row's
reserve values are nonzero, and is absent when either is zero (Python
truthiness), not only when data is missing. -/
theorem whale_market_cap_amended (mint : String) (sol_threshold : ℚ)
    (buys : List Trade) (tr : String) (s : WhaleSignal) (r : Trade)
    (rs : List Trade)
    (hrows : whaleGroup buys tr = r :: rs)
    (hs : whaleSignalFor mint sol_threshold buys tr = some s) :
    s.estimated_market_cap_sol =
      if ((r :: rs).getLastD r).virtual_sol_reserves ≠ 0 ∧
         ((r :: rs).getLastD r).virtual_token_reserves ≠ 0 then
        some ((r :: rs).getLastD r).virtual_sol_reserves
      else none := by
  unfold whaleSignalFor at hs
  rw [hrows] at hs
  obtain ⟨r', rs', heq, -, hsval⟩ := whaleSignalOfRows_eq_some hs
  obtain ⟨rfl, rfl⟩ : r' = r ∧ rs' = rs := by
    refine ⟨?_, ?_⟩ <;> injection heq <;> simp_all
  subst hsval
  rfl

/-- Witness for C5 amended at `zeroReserveBatch`'s buy frame. -/
theorem whale_market_cap_amended_witness :
    ∃ s : WhaleSignal,
      whaleSignalFor "m" 10 zeroReserveBatch "w" = some s ∧
      s.estimated_market_cap_sol =
        (if (((⟨0, "m", "w", true, 12, 3, 7, 0⟩ : Trade) :: []).getLastD
                ⟨0, "m", "w", true, 12, 3, 7, 0⟩).virtual_sol_reserves ≠ 0 ∧
            (((⟨0, "m", "w", true, 12, 3, 7, 0⟩ : Trade) :: []).getLastD
                ⟨0, "m", "w", true, 12, 3, 7, 0⟩).virtual_token_reserves ≠ 0 then
          some (((⟨0, "m", "w", true, 12, 3, 7, 0⟩ : Trade) :: []).getLastD
              ⟨0, "m", "w", true, 12, 3, 7, 0⟩).virtual_sol_reserves
        else none) := by
  have hrows : whaleGroup zeroReserveBatch "w" =
      (⟨0, "m", "w", true, 12, 3, 7, 0⟩ : Trade) :: [] := by
    norm_num [whaleGroup, zeroReserveBatch]
  have hs : whaleSignalFor "m" 10 zeroReserveBatch "w" =
      some { severity := SignalSeverity.LOW
             mint := "m"
             trader_address := "w"
             total_sol_accumulated := 12
             total_tokens_accumulated := 3
             trade_count := 1
             first_trade_at := 0
             last_trade_at := 0
             estimated_market_cap_sol := none } := by
    norm_num [whaleSignalFor, whaleGroup, whaleSignalOfRows, whaleSeverity,
      sumSol, sumTok, minObsFrom, maxObsFrom, zeroReserveBatch]
  exact ⟨_, hs, whale_market_cap_amended "m" 10 zeroReserveBatch "w" _ _ [] hrows hs⟩

theorem whaleSignalFor_trader {mint : String} {thr : ℚ} {buys : List Trade}
    {tr : String} {s : WhaleSignal}
    (hs : whaleSignalFor mint thr buys tr = some s) : s.trader_address = tr := by
  unfold whaleSignalFor at hs
  obtain ⟨r, rs, -, -, hsval⟩ := whaleSignalOfRows_eq_some hs
  subst hsval
  rfl

theorem whaleSignalOfRows_isSome (mint : String) (thr : ℚ) (tr : String) :
    ∀ rows : List Trade,
      (whaleSignalOfRows mint thr tr rows).isSome = true ↔
        (rows ≠ [] ∧ thr ≤ sumSol rows)
  | [] => by simp [whaleSignalOfRows]
  | r :: rs => by
      by_cases hthr : thr ≤ sumSol (r :: rs) <;>
        simp [whaleSignalOfRows, hthr]

theorem mem_uniqueTraders_iff {l : List Trade} {tr : String} :
    tr ∈ uniqueTraders l ↔ whaleGroup l tr ≠ [] := by
  unfold uniqueTraders whaleGroup
  rw [List.mem_dedup]
  constructor
  · intro h
    obtain ⟨t, ht, rfl⟩ := List.mem_map.mp h
    intro hnil
    have hmem : t ∈ l.filter (fun u => u.trader == t.trader) := by
      rw [List.mem_filter]
      exact ⟨ht, by simp⟩
    rw [hnil] at hmem
    exact List.not_mem_nil t hmem
  · intro h
    cases hrows : l.filter (fun t => t.trader == tr) with
    | nil => exact absurd hrows h
    | cons r rs =>
        have hr : r ∈ l.filter (fun t => t.trader == tr) := by
          rw [hrows]; exact List.mem_cons_self r rs
        rw [List.mem_filter] at hr
        exact List.mem_map.mpr ⟨r, hr.1, by simpa using hr.2⟩

theorem earlyTrades_of_mint_empty {trades : List Trade} {mint : String}
    {first_minutes : Int} (h : (mintTrades trades mint).isEmpty = true) :
    earlyTrades trades mint first_minutes = [] := by
  unfold earlyTrades
  rw [List.isEmpty_iff] at h
  rw [h]
  rfl

theorem earlyTrades_of_min_none {trades : List Trade} {mint : String}
    {first_minutes : Int}
    (h : minObserved (mintTrades trades mint) = none) :
    earlyTrades trades mint first_minutes = [] := by
  unfold earlyTrades
  rw [h]

theorem filterMap_whale_filter (mint : String) (thr : ℚ) (buys : List Trade)
    (tr : String) :
    ∀ l : List String, l.Nodup →
      (l.filterMap (whaleSignalFor mint thr buys)).filter
          (fun s => s.trader_address == tr) =
        (if tr ∈ l then (whaleSignalFor mint thr buys tr).toList else [])
  | [], _ => by simp
  | x :: xs, h => by
      obtain ⟨hx, hxs⟩ := List.nodup_cons.mp h
      have ih := filterMap_whale_filter mint thr buys tr xs hxs
      cases hfx : whaleSignalFor mint thr buys x with
      | none =>
          rw [List.filterMap_cons, hfx, ih]
          by_cases hx_tr : tr = x
          · subst hx_tr
            simp [hx, hfx]
          · simp [List.mem_cons, hx_tr]
      | some s =>
          have hsx : s.trader_address = x := whaleSignalFor_trader hfx
          rw [List.filterMap_cons, hfx, List.filter_cons]
          by_cases hx_tr : tr = x
          · subst hx_tr
            have hbeq : (s.trader_address == tr) = true := by simp [hsx]
            rw [hbeq, if_pos rfl, ih, if_neg hx,
              if_pos (List.mem_cons_self tr xs), hfx]
            rfl
          · have hbeq : (s.trader_address == tr) = false := by
              simp only [hsx, beq_eq_false_iff_ne, ne_eq]
              exact fun hh => hx_tr hh.symm
            rw [hbeq, if_neg (by simp), ih]
            simp only [List.mem_cons]
            by_cases hm : tr ∈ xs
            · rw [if_pos hm, if_pos (Or.inr hm)]
            · rw [if_neg hm, if_neg (fun hmem => hmem.elim hx_tr hm)]

theorem detect_whale_filter_eq (trades : List Trade) (mint : String)
    (fm : Int) (thr : ℚ) (tr : String) :
    (detect_whale_accumulation trades mint fm thr).filter
        (fun s => s.trader_address == tr) =
      (if tr ∈ uniqueTraders (earlyBuys trades mint fm) then
        (whaleSignalFor mint thr (earlyBuys trades mint fm) tr).toList
      else []) := by
  unfold detect_whale_accumulation
  by_cases h1 : (mintTrades trades mint).isEmpty
  · rw [if_pos h1]
    have hb : earlyBuys trades mint fm = [] := by
      unfold earlyBuys
      rw [earlyTrades_of_mint_empty h1]
      rfl
    rw [hb]
    simp [uniqueTraders]
  · rw [if_neg h1]
    split
    next hmin =>
      have hb : earlyBuys trades mint fm = [] := by
        unfold earlyBuys
        rw [earlyTrades_of_min_none hmin]
        rfl
      rw [hb]
      simp [uniqueTraders]
    next L hmin =>
      by_cases h2 : (earlyTrades trades mint fm).isEmpty
      · rw [if_pos h2]
        have hb : earlyBuys trades mint fm = [] := by
          unfold earlyBuys
          rw [List.isEmpty_iff.mp h2]
          rfl
        rw [hb]
        simp [uniqueTraders]
      · rw [if_neg h2]
        exact filterMap_whale_filter mint thr (earlyBuys trades mint fm) tr _
          (List.nodup_dedup _)

/-- C8 amended: for positive `sol_threshold`, `detect_whale_accumulation`
emits exactly one signal for a trader iff the sum of `sol_amount` over the
trader's buy-direction trades in the detection window reaches the threshold
(inclusive boundary), and every signal of that trader carries exactly the
buy-only SOL and token sums — sell-direction trades contribute nothing. -/
theorem whale_threshold_iff (trades : List Trade) (mint : String)
    (first_minutes : Int) (sol_threshold : ℚ) (tr : String)
    (hthr : 0 < sol_threshold) :
    (((detect_whale_accumulation trades mint first_minutes sol_threshold).filter
        (fun s => s.trader_address == tr)).length = 1 ↔
      sol_threshold ≤ sumSol (inWindowBuys trades mint first_minutes tr)) ∧
    (∀ s ∈ detect_whale_accumulation trades mint first_minutes sol_threshold,
       s.trader_address = tr →
         s.total_sol_accumulated =
           sumSol (inWindowBuys trades mint first_minutes tr) ∧
         s.total_tokens_accumulated =
           sumTok (inWindowBuys trades mint first_minutes tr)) := by
  have hiw : inWindowBuys trades mint first_minutes tr =
      whaleGroup (earlyBuys trades mint first_minutes) tr := rfl
  constructor
  · rw [detect_whale_filter_eq]
    by_cases hmem : tr ∈ uniqueTraders (earlyBuys trades mint first_minutes)
    · rw [if_pos hmem]
      have hne : whaleGroup (earlyBuys trades mint first_minutes) tr ≠ [] :=
        mem_uniqueTraders_iff.mp hmem
      rw [hiw]
      cases hf : whaleSignalFor mint sol_threshold
          (earlyBuys trades mint first_minutes) tr with
      | none =>
          have hnle : ¬(sol_threshold ≤
              sumSol (whaleGroup (earlyBuys trades mint first_minutes) tr)) := by
            intro hle
            have hsome : (whaleSignalFor mint sol_threshold
                (earlyBuys trades mint first_minutes) tr).isSome = true := by
              unfold whaleSignalFor
              exact (whaleSignalOfRows_isSome _ _ _ _).mpr ⟨hne, hle⟩
            rw [hf] at hsome
            cases hsome
          simp [Option.toList, hnle]
      | some s =>
          have hsome : (whaleSignalFor mint sol_threshold
              (earlyBuys trades mint first_minutes) tr).isSome = true := by
            rw [hf]; rfl
          have hle : sol_threshold ≤
              sumSol (whaleGroup (earlyBuys trades mint first_minutes) tr) := by
            unfold whaleSignalFor at hsome
            exact ((whaleSignalOfRows_isSome _ _ _ _).mp hsome).2
          simp [Option.toList, hle]
    · rw [if_neg hmem]
      have hnil : whaleGroup (earlyBuys trades mint first_minutes) tr = [] := by
        by_contra hne
        exact hmem (mem_uniqueTraders_iff.mpr hne)
      rw [hiw, hnil]
      have : ¬(sol_threshold ≤ sumSol ([] : List Trade)) := by
        simp [sumSol]
        linarith
      simp [this]
  · intro s hs htr
    obtain ⟨tr', -, hf⟩ := mem_detect_whale hs
    have htr' : s.trader_address = tr' := whaleSignalFor_trader hf
    have heq : tr' = tr := by rw [← htr', htr]
    subst heq
    unfold whaleSignalFor at hf
    obtain ⟨r, rs, hrows, -, hsval⟩ := whaleSignalOfRows_eq_some hf
    subst hsval
    rw [hiw, hrows]
    exact ⟨rfl, rfl⟩

/-- C8 counterexample: with `sol_threshold = 0`, trader `w` of `sellOnlyBatch`
has no buy-direction trade in the window, so the buy-sum is `0 ≥ 0`, yet the
detector emits no signal for `w` — the claimed equivalence fails as stated
(without a positivity assumption on the threshold). -/
theorem whale_threshold_zero_cex :
    ¬((((detect_whale_accumulation sellOnlyBatch "m" 5 0).filter
          (fun s => s.trader_address == "w")).length = 1) ↔
        (0 : ℚ) ≤ sumSol (inWindowBuys sellOnlyBatch "m" 5 "w")) := by
  have h1 : detect_whale_accumulation sellOnlyBatch "m" 5 0 = [] := by
    norm_num [detect_whale_accumulation, sellOnlyBatch, mintTrades, minObserved,
      earlyTrades, earlyBuys, uniqueTraders, whaleSignalFor, whaleGroup,
      whaleSignalOfRows, sumSol, usPerMinute, List.dedup, List.filterMap,
      min_def, max_def]
  have h2 : sumSol (inWindowBuys sellOnlyBatch "m" 5 "w") = 0 := by
    norm_num [inWindowBuys, sellOnlyBatch, mintTrades, minObserved, earlyTrades,
      earlyBuys, sumSol, usPerMinute, min_def]
  rw [h1, h2]
  simp

/-- Witness for C8 amended: `boundaryBatch`, trader `w`, threshold 10. -/
theorem whale_threshold_iff_witness :
    (((detect_whale_accumulation boundaryBatch "m" 5 10).filter
        (fun s => s.trader_address == "w")).length = 1 ↔
      (10 : ℚ) ≤ sumSol (inWindowBuys boundaryBatch "m" 5 "w")) ∧
    (∀ s ∈ detect_whale_accumulation boundaryBatch "m" 5 10,
       s.trader_address = "w" →
         s.total_sol_accumulated = sumSol (inWindowBuys boundaryBatch "m" 5 "w") ∧
         s.total_tokens_accumulated = sumTok (inWindowBuys boundaryBatch "m" 5 "w")) :=
  whale_threshold_iff boundaryBatch "m" 5 10 "w" (by norm_num)
